import Mathlib

/-!
Verification of the `websitecheck` monitor (Go, two variants).

The definitions below are a shallow embedding of the two Go source files:
the backoff variant (`src/unnamed/part_000`) and the plain variant
(`src/main.go`).  Go `int` values are modelled as `ℤ`, the `float64`
backoff factor as `ℚ`, and the Go conversion `int(f)` (truncation toward
zero) as `ratTrunc`.  HTTP attempt results are supplied by an oracle
`ℕ → AttemptResult` (attempt `i` yields either a transport error or a
status code), and the remediation subprocess is supplied as a
`ProcResult`.  Log output is modelled explicitly so that properties about
what is and is not logged can be stated.
-/

/-- Go conversion `int(q)` for a real value modelled as `ℚ`: truncation
toward zero. -/
def ratTrunc (q : ℚ) : ℤ := if 0 ≤ q then ⌊q⌋ else ⌈q⌉

/-- Result of one `client.Get(url)` call: either a transport error
(`err != nil` in Go) or a response carrying a status code. -/
inductive AttemptResult where
  | transportError : AttemptResult
  | status : ℤ → AttemptResult
deriving DecidableEq

/-- An attempt succeeds when the request completes without a transport
error and the status code is not rejected by the check
`resp.StatusCode < 200 || resp.StatusCode >= 400`. -/
def attemptOk : AttemptResult → Bool
  | AttemptResult.transportError => false
  | AttemptResult.status c => if c < 200 ∨ 400 ≤ c then false else true

/-- Diagnostic log lines emitted by `checkWebsiteDown` when verbose:
`Request failed (attempt a/r)` and `Bad status code (attempt a/r): c`. -/
inductive LogEvent where
  | requestFailed (attempt total : ℤ)
  | badStatus (attempt total : ℤ) (code : ℤ)
deriving DecidableEq

/-- Body of the retry loop of `checkWebsiteDown` in `src/unnamed/part_000`
(lines 102-137), starting from loop index `i`.  Returns the boolean result
(`true` = site considered down), the number of `client.Get` calls
performed from index `i` on, and the diagnostic log lines emitted. -/
def checkWebsiteDownFrom (oracle : ℕ → AttemptResult) (retries : ℤ)
    (verbose : Bool) (i : ℕ) : Bool × ℕ × List LogEvent :=
  if _h : (i : ℤ) < retries then
    match oracle i with
    | AttemptResult.transportError =>
        let logs := if verbose then [LogEvent.requestFailed ((i : ℤ) + 1) retries] else []
        if (i : ℤ) < retries - 1 then
          let rest := checkWebsiteDownFrom oracle retries verbose (i + 1)
          (rest.1, rest.2.1 + 1, logs ++ rest.2.2)
        else
          (true, 1, logs)
    | AttemptResult.status c =>
        if c < 200 ∨ 400 ≤ c then
          let logs := if verbose then [LogEvent.badStatus ((i : ℤ) + 1) retries c] else []
          if (i : ℤ) < retries - 1 then
            let rest := checkWebsiteDownFrom oracle retries verbose (i + 1)
            (rest.1, rest.2.1 + 1, logs ++ rest.2.2)
          else
            (true, 1, logs)
        else
          (false, 1, [])
  else
    (true, 0, [])
termination_by (retries - (i : ℤ)).toNat
decreasing_by
  all_goals simp_wf
  all_goals omega

/-- `checkWebsiteDown` of `src/unnamed/part_000`: the classification it
returns (`true` means DOWN). -/
def checkWebsiteDown (oracle : ℕ → AttemptResult) (retries : ℤ)
    (verbose : Bool) : Bool :=
  (checkWebsiteDownFrom oracle retries verbose 0).1

/-- Number of HTTP GET attempts `checkWebsiteDown` performs. -/
def checkAttempts (oracle : ℕ → AttemptResult) (retries : ℤ)
    (verbose : Bool) : ℕ :=
  (checkWebsiteDownFrom oracle retries verbose 0).2.1

namespace MainGo

/-- Body of the retry loop of `checkWebsiteDown` in `src/main.go`
(lines 71-106), starting from loop index `i`.  The Go text of this
function is the same as in `src/unnamed/part_000`; it is embedded
separately so that the two variants can be compared. -/
def checkWebsiteDownFrom (oracle : ℕ → AttemptResult) (retries : ℤ)
    (verbose : Bool) (i : ℕ) : Bool × ℕ × List LogEvent :=
  if _h : (i : ℤ) < retries then
    match oracle i with
    | AttemptResult.transportError =>
        let logs := if verbose then [LogEvent.requestFailed ((i : ℤ) + 1) retries] else []
        if (i : ℤ) < retries - 1 then
          let rest := checkWebsiteDownFrom oracle retries verbose (i + 1)
          (rest.1, rest.2.1 + 1, logs ++ rest.2.2)
        else
          (true, 1, logs)
    | AttemptResult.status c =>
        if c < 200 ∨ 400 ≤ c then
          let logs := if verbose then [LogEvent.badStatus ((i : ℤ) + 1) retries c] else []
          if (i : ℤ) < retries - 1 then
            let rest := checkWebsiteDownFrom oracle retries verbose (i + 1)
            (rest.1, rest.2.1 + 1, logs ++ rest.2.2)
          else
            (true, 1, logs)
        else
          (false, 1, [])
  else
    (true, 0, [])
termination_by (retries - (i : ℤ)).toNat
decreasing_by
  all_goals simp_wf
  all_goals omega

/-- `checkWebsiteDown` of `src/main.go`. -/
def checkWebsiteDown (oracle : ℕ → AttemptResult) (retries : ℤ)
    (verbose : Bool) : Bool :=
  (MainGo.checkWebsiteDownFrom oracle retries verbose 0).1

end MainGo

/-- Outcome of launching the remediation executable: whether the process
could be started and waited for, its exit code, and the combined
stdout/stderr text captured.  In Go, `cmd.CombinedOutput()` returns a
non-nil error both when the launch/wait fails and when the process exits
with a non-zero status (an `*exec.ExitError`). -/
structure ProcResult where
  launched : Bool
  exitCode : ℤ
  output : String
deriving DecidableEq

/-- Observable events of `executeELF`: the log line
`Failed to execute ELF binary: ...` and the printing of the captured
output. -/
inductive ExecEvent where
  | failedToExecute
  | elfOutput (out : String)
deriving DecidableEq

/-- `executeELF` of `src/unnamed/part_000` (lines 140-154): run the
binary, capture combined output; if `CombinedOutput` reported an error
(launch/wait failure or non-zero exit status) log the failure and return,
otherwise print the captured output. -/
def executeELF (r : ProcResult) : List ExecEvent :=
  if r.launched && r.exitCode == 0 then
    [ExecEvent.elfOutput r.output]
  else
    [ExecEvent.failedToExecute]

/-- Configuration of the monitor: the values of the command-line flags of
`src/unnamed/part_000` that the monitoring loop reads. -/
structure MonitorConfig where
  interval : ℤ
  retries : ℤ
  verbose : Bool
  maxBackoff : ℤ
  initialBackoff : ℤ
  backoffFactor : ℚ
deriving DecidableEq

/-- Mutable state of the monitoring loop: `consecutiveFailures` and
`currentBackoff` of `src/unnamed/part_000` (lines 57-59). -/
structure BackoffState where
  consecutiveFailures : ℕ
  currentBackoff : ℤ
deriving DecidableEq

/-- One iteration of the monitoring loop of `src/unnamed/part_000`
(lines 62-97), given the probe outcome `siteDown` and the remediation
process result `rem`.  Returns the updated backoff state, the single
inter-cycle sleep duration performed this iteration (the backoff sleep
when `continue` is taken, the base interval sleep otherwise), and the
events emitted by `executeELF`. -/
def monitorCycleFull (cfg : MonitorConfig) (s : BackoffState)
    (siteDown : Bool) (rem : ProcResult) :
    (BackoffState × ℤ) × List ExecEvent :=
  if siteDown then
    let evs := executeELF rem
    let failures := s.consecutiveFailures + 1
    if failures > 1 then
      let newBackoff := ratTrunc ((s.currentBackoff : ℚ) * cfg.backoffFactor)
      let cb := if newBackoff > cfg.maxBackoff then cfg.maxBackoff else newBackoff
      ((⟨failures, cb⟩, cb), evs)
    else
      ((⟨failures, s.currentBackoff⟩, cfg.interval), evs)
  else
    ((⟨0, cfg.initialBackoff⟩, cfg.interval), [])

/-- Backoff-state and sleep effect of one monitoring cycle.  By
`monitorCycleFull_fst` below this does not depend on the remediation
process result, so a fixed one is passed. -/
def monitorCycle (cfg : MonitorConfig) (s : BackoffState)
    (siteDown : Bool) : BackoffState × ℤ :=
  (monitorCycleFull cfg s siteDown ⟨true, 0, ""⟩).1

/-- Initial backoff state of the loop (lines 57-59). -/
def initState (cfg : MonitorConfig) : BackoffState :=
  ⟨0, cfg.initialBackoff⟩

/-- Backoff state after processing a finite sequence of probe outcomes
(`true` = DOWN). -/
def runMonitor (cfg : MonitorConfig) (s : BackoffState) :
    List Bool → BackoffState
  | [] => s
  | o :: rest => runMonitor cfg (monitorCycle cfg s o).1 rest

/-- Sleep durations performed by the successive cycles, one per probe
outcome. -/
def monitorSleeps (cfg : MonitorConfig) (s : BackoffState) :
    List Bool → List ℤ
  | [] => []
  | o :: rest =>
      (monitorCycle cfg s o).2 :: monitorSleeps cfg (monitorCycle cfg s o).1 rest

/-- Backoff state after processing a finite sequence of cycles, each
given as a probe outcome together with the remediation process result
observed in that cycle. -/
def runMonitorFull (cfg : MonitorConfig) (s : BackoffState) :
    List (Bool × ProcResult) → BackoffState
  | [] => s
  | (o, r) :: rest => runMonitorFull cfg (monitorCycleFull cfg s o r).1.1 rest

/-- Modelled from the spec's words (for comparison with the code): the
new delay the spec's sentence prescribes after a repeated failure,
`min(delay * factor, maximum)` with exact rational multiplication. -/
def specNewDelay (delay : ℤ) (factor : ℚ) (maxDelay : ℤ) : ℚ :=
  min ((delay : ℚ) * factor) ((maxDelay : ℚ))

/-! Helper lemmas about the embedded definitions. -/

theorem ratTrunc_intCast (n : ℤ) : ratTrunc (n : ℚ) = n := by
  unfold ratTrunc
  split <;> simp

theorem le_ratTrunc {z : ℤ} {q : ℚ} (hq : 0 ≤ q) (hz : (z : ℚ) ≤ q) :
    z ≤ ratTrunc q := by
  unfold ratTrunc
  rw [if_pos hq]
  exact Int.le_floor.mpr hz

theorem clamp_eq_min (a b : ℤ) : (if a > b then b else a) = min a b := by
  rw [min_def]
  split <;> split <;> omega

theorem monitorCycleFull_fst (cfg : MonitorConfig) (s : BackoffState)
    (d : Bool) (rem : ProcResult) :
    (monitorCycleFull cfg s d rem).1 = monitorCycle cfg s d := by
  cases d
  · rfl
  · by_cases hgt : s.consecutiveFailures + 1 > 1 <;>
      simp [monitorCycleFull, monitorCycle, hgt]

theorem monitorCycle_up (cfg : MonitorConfig) (s : BackoffState) :
    monitorCycle cfg s false = (⟨0, cfg.initialBackoff⟩, cfg.interval) := rfl

theorem monitorCycle_firstDown (cfg : MonitorConfig) (s : BackoffState)
    (h0 : s.consecutiveFailures = 0) :
    monitorCycle cfg s true = (⟨1, s.currentBackoff⟩, cfg.interval) := by
  have hng : ¬ (s.consecutiveFailures + 1 > 1) := by omega
  simp [monitorCycle, monitorCycleFull, hng, h0]

theorem monitorCycle_repeatDown (cfg : MonitorConfig) (s : BackoffState)
    (h1 : 1 ≤ s.consecutiveFailures) :
    monitorCycle cfg s true =
      (⟨s.consecutiveFailures + 1,
        min (ratTrunc ((s.currentBackoff : ℚ) * cfg.backoffFactor)) cfg.maxBackoff⟩,
       min (ratTrunc ((s.currentBackoff : ℚ) * cfg.backoffFactor)) cfg.maxBackoff) := by
  have hgt : s.consecutiveFailures + 1 > 1 := by omega
  simp [monitorCycle, monitorCycleFull, hgt, clamp_eq_min]

theorem monitorCycle_bound (cfg : MonitorConfig)
    (hf : 1 ≤ cfg.backoffFactor) (hi0 : 0 ≤ cfg.initialBackoff)
    (him : cfg.initialBackoff ≤ cfg.maxBackoff)
    (s : BackoffState) (o : Bool)
    (hl : cfg.initialBackoff ≤ s.currentBackoff)
    (hu : s.currentBackoff ≤ cfg.maxBackoff) :
    cfg.initialBackoff ≤ (monitorCycle cfg s o).1.currentBackoff ∧
    (monitorCycle cfg s o).1.currentBackoff ≤ cfg.maxBackoff := by
  cases o with
  | false =>
      rw [monitorCycle_up]
      exact ⟨le_refl _, him⟩
  | true =>
      rcases Nat.eq_zero_or_pos s.consecutiveFailures with h0 | hpos
      · rw [monitorCycle_firstDown cfg s h0]
        exact ⟨hl, hu⟩
      · rw [monitorCycle_repeatDown cfg s hpos]
        have hcb0 : (0 : ℤ) ≤ s.currentBackoff := le_trans hi0 hl
        have hcbq : (0 : ℚ) ≤ (s.currentBackoff : ℚ) := by exact_mod_cast hcb0
        have hmul : (s.currentBackoff : ℚ) ≤ (s.currentBackoff : ℚ) * cfg.backoffFactor :=
          le_mul_of_one_le_right hcbq hf
        have hq0 : (0 : ℚ) ≤ (s.currentBackoff : ℚ) * cfg.backoffFactor :=
          le_trans hcbq hmul
        have htr : s.currentBackoff ≤ ratTrunc ((s.currentBackoff : ℚ) * cfg.backoffFactor) :=
          le_ratTrunc hq0 hmul
        exact ⟨le_min (le_trans hl htr) him, min_le_right _ _⟩

theorem runMonitor_bound (cfg : MonitorConfig)
    (hf : 1 ≤ cfg.backoffFactor) (hi0 : 0 ≤ cfg.initialBackoff)
    (him : cfg.initialBackoff ≤ cfg.maxBackoff) :
    ∀ (outs : List Bool) (s : BackoffState),
      cfg.initialBackoff ≤ s.currentBackoff → s.currentBackoff ≤ cfg.maxBackoff →
      cfg.initialBackoff ≤ (runMonitor cfg s outs).currentBackoff ∧
      (runMonitor cfg s outs).currentBackoff ≤ cfg.maxBackoff := by
  intro outs
  induction outs with
  | nil => intro s hl hu; exact ⟨hl, hu⟩
  | cons o rest ih =>
      intro s hl hu
      have hstep := monitorCycle_bound cfg hf hi0 him s o hl hu
      simpa [runMonitor] using ih _ hstep.1 hstep.2

theorem monitorSleeps_length (cfg : MonitorConfig) :
    ∀ (outs : List Bool) (s : BackoffState),
      (monitorSleeps cfg s outs).length = outs.length := by
  intro outs
  induction outs with
  | nil => intro s; rfl
  | cons o rest ih => intro s; simp [monitorSleeps, ih]

/-! Claim theorems for the monitoring loop. -/

/-- C1 (amended): on a DOWN cycle whose preceding consecutive-failure
counter is at least 1, the loop sets the new backoff delay to
`min(trunc(currentDelay * factor), maximum)` — the product is truncated
toward zero by the Go conversion `int(...)` — and, provided
`factor ≥ 1` and `0 ≤ initial ≤ maximum`, the new delay is at least the
previous delay in every reachable state. -/
theorem backoff_growth_amended (cfg : MonitorConfig) (outs : List Bool)
    (hf : 1 ≤ cfg.backoffFactor) (hi0 : 0 ≤ cfg.initialBackoff)
    (him : cfg.initialBackoff ≤ cfg.maxBackoff)
    (hc : 1 ≤ (runMonitor cfg (initState cfg) outs).consecutiveFailures) :
    (monitorCycle cfg (runMonitor cfg (initState cfg) outs) true).1.currentBackoff =
      min (ratTrunc (((runMonitor cfg (initState cfg) outs).currentBackoff : ℚ) *
            cfg.backoffFactor)) cfg.maxBackoff ∧
    (runMonitor cfg (initState cfg) outs).currentBackoff ≤
      (monitorCycle cfg (runMonitor cfg (initState cfg) outs) true).1.currentBackoff := by
  have hbounds := runMonitor_bound cfg hf hi0 him outs (initState cfg)
    (by simp [initState]) (by simpa [initState] using him)
  set s := runMonitor cfg (initState cfg) outs
  rw [monitorCycle_repeatDown cfg s hc]
  refine ⟨rfl, ?_⟩
  have hcb0 : (0 : ℤ) ≤ s.currentBackoff := le_trans hi0 hbounds.1
  have hcbq : (0 : ℚ) ≤ (s.currentBackoff : ℚ) := by exact_mod_cast hcb0
  have hmul : (s.currentBackoff : ℚ) ≤ (s.currentBackoff : ℚ) * cfg.backoffFactor :=
    le_mul_of_one_le_right hcbq hf
  exact le_min (le_ratTrunc (le_trans hcbq hmul) hmul) hbounds.2

/-- Witness for C1 (amended): with initial=60, factor=2, maximum=300 and
one preceding DOWN cycle, the next DOWN cycle satisfies the amended
backoff-growth property. -/
theorem backoff_growth_amended_witness :
    1 ≤ (runMonitor ⟨60, 3, false, 300, 60, 2⟩
          (initState ⟨60, 3, false, 300, 60, 2⟩) [true]).consecutiveFailures ∧
    ((monitorCycle ⟨60, 3, false, 300, 60, 2⟩
        (runMonitor ⟨60, 3, false, 300, 60, 2⟩
          (initState ⟨60, 3, false, 300, 60, 2⟩) [true]) true).1.currentBackoff =
      min (ratTrunc (((runMonitor ⟨60, 3, false, 300, 60, 2⟩
            (initState ⟨60, 3, false, 300, 60, 2⟩) [true]).currentBackoff : ℚ) *
            (⟨60, 3, false, 300, 60, 2⟩ : MonitorConfig).backoffFactor))
        (⟨60, 3, false, 300, 60, 2⟩ : MonitorConfig).maxBackoff ∧
    (runMonitor ⟨60, 3, false, 300, 60, 2⟩
        (initState ⟨60, 3, false, 300, 60, 2⟩) [true]).currentBackoff ≤
      (monitorCycle ⟨60, 3, false, 300, 60, 2⟩
        (runMonitor ⟨60, 3, false, 300, 60, 2⟩
          (initState ⟨60, 3, false, 300, 60, 2⟩) [true]) true).1.currentBackoff) :=
  ⟨by norm_num [runMonitor, monitorCycle, monitorCycleFull, executeELF, initState],
   backoff_growth_amended ⟨60, 3, false, 300, 60, 2⟩ [true] (by norm_num) (by norm_num)
     (by norm_num)
     (by norm_num [runMonitor, monitorCycle, monitorCycleFull, executeELF, initState])⟩

/-- C1 counterexample: the claim's exact equation
`delay' = min(delay * factor, maximum)` fails on the code for
factor = 3/2: with initial=3, maximum=1000, after two consecutive DOWN
cycles the code holds delay 4 (the truncation of 4.5), while the claimed
exact value is 9/2.  The claim's premises hold there: factor = 3/2 ≥ 1
and the counter before the second DOWN cycle is 1. -/
theorem backoff_growth_counterexample :
    (1 : ℚ) ≤ (⟨60, 3, false, 1000, 3, 3/2⟩ : MonitorConfig).backoffFactor ∧
    (runMonitor ⟨60, 3, false, 1000, 3, 3/2⟩
        (initState ⟨60, 3, false, 1000, 3, 3/2⟩) [true]).consecutiveFailures = 1 ∧
    (runMonitor ⟨60, 3, false, 1000, 3, 3/2⟩
        (initState ⟨60, 3, false, 1000, 3, 3/2⟩) [true]).currentBackoff = 3 ∧
    (((monitorCycle ⟨60, 3, false, 1000, 3, 3/2⟩
        (runMonitor ⟨60, 3, false, 1000, 3, 3/2⟩
          (initState ⟨60, 3, false, 1000, 3, 3/2⟩) [true]) true).1.currentBackoff : ℚ) ≠
      specNewDelay 3 (3/2) 1000) := by
  refine ⟨by norm_num, ?_, ?_, ?_⟩ <;>
    norm_num [runMonitor, monitorCycle, monitorCycleFull, executeELF, initState,
      ratTrunc, specNewDelay]

/-- C2: for every sequence of probe outcomes, processing an UP outcome in
the reached state resets the counter to 0 and the delay to the configured
initial delay, and the sleep of that cycle is the base check interval. -/
theorem up_resets_backoff (cfg : MonitorConfig) (outs : List Bool) :
    monitorCycle cfg (runMonitor cfg (initState cfg) outs) false =
      (⟨0, cfg.initialBackoff⟩, cfg.interval) := rfl

/-- C3: every cycle performs exactly one inter-cycle sleep; a DOWN cycle
with counter 0 before it sleeps for the base interval, a DOWN cycle with
counter ≥ 1 before it sleeps for the updated backoff delay; and with
initial=60, factor=2, maximum=300, base interval 60, four consecutive
DOWN cycles sleep 60, 120, 240, 300 seconds. -/
theorem down_sleep_schedule :
    (∀ (cfg : MonitorConfig) (s : BackoffState) (outs : List Bool),
        (monitorSleeps cfg s outs).length = outs.length) ∧
    (∀ (cfg : MonitorConfig) (s : BackoffState), s.consecutiveFailures = 0 →
        (monitorCycle cfg s true).2 = cfg.interval) ∧
    (∀ (cfg : MonitorConfig) (s : BackoffState), 1 ≤ s.consecutiveFailures →
        (monitorCycle cfg s true).2 = (monitorCycle cfg s true).1.currentBackoff) ∧
    monitorSleeps ⟨60, 3, false, 300, 60, 2⟩ (initState ⟨60, 3, false, 300, 60, 2⟩)
        [true, true, true, true] = [60, 120, 240, 300] := by
  refine ⟨fun cfg s outs => monitorSleeps_length cfg outs s, ?_, ?_, ?_⟩
  · intro cfg s h0
    rw [monitorCycle_firstDown cfg s h0]
  · intro cfg s h1
    rw [monitorCycle_repeatDown cfg s h1]
  · norm_num [monitorSleeps, monitorCycle, monitorCycleFull, executeELF, initState, ratTrunc]

/-- Witness for C3: the two implications instantiated at counter 0 and
counter 1 in the Scenario C configuration. -/
theorem down_sleep_schedule_witness :
    (monitorCycle ⟨60, 3, false, 300, 60, 2⟩ ⟨0, 60⟩ true).2 =
      (⟨60, 3, false, 300, 60, 2⟩ : MonitorConfig).interval ∧
    (monitorCycle ⟨60, 3, false, 300, 60, 2⟩ ⟨1, 60⟩ true).2 =
      (monitorCycle ⟨60, 3, false, 300, 60, 2⟩ ⟨1, 60⟩ true).1.currentBackoff :=
  ⟨down_sleep_schedule.2.1 ⟨60, 3, false, 300, 60, 2⟩ ⟨0, 60⟩ rfl,
   down_sleep_schedule.2.2.1 ⟨60, 3, false, 300, 60, 2⟩ ⟨1, 60⟩ (by decide)⟩

/-- C4 counterexample: under only the claim's hypotheses factor ≥ 1 and
initial ≤ maximum, the invariant fails: with initial=-5 (the code accepts
negative backoff flags), maximum=10, factor=2, two consecutive DOWN
cycles drive the delay to -10 < initial. -/
theorem backoff_bounds_counterexample :
    (1 : ℚ) ≤ (⟨60, 3, false, 10, -5, 2⟩ : MonitorConfig).backoffFactor ∧
    (⟨60, 3, false, 10, -5, 2⟩ : MonitorConfig).initialBackoff ≤
      (⟨60, 3, false, 10, -5, 2⟩ : MonitorConfig).maxBackoff ∧
    (runMonitor ⟨60, 3, false, 10, -5, 2⟩ (initState ⟨60, 3, false, 10, -5, 2⟩)
        [true, true]).currentBackoff <
      (⟨60, 3, false, 10, -5, 2⟩ : MonitorConfig).initialBackoff := by
  refine ⟨by norm_num, by norm_num, ?_⟩
  have hceil : (⌈(-10 : ℚ)⌉ : ℤ) = -10 := by
    rw [show ((-10 : ℚ)) = ((-10 : ℤ) : ℚ) by norm_num]
    exact Int.ceil_intCast _
  norm_num [runMonitor, monitorCycle, monitorCycleFull, executeELF, initState,
    ratTrunc, hceil]

/-- C4 (amended): for every configuration with factor ≥ 1 and
0 ≤ initial ≤ maximum, the current backoff delay lies in
[initial, maximum] in every reachable state of the monitor loop. -/
theorem backoff_bounds_amended (cfg : MonitorConfig)
    (hf : 1 ≤ cfg.backoffFactor) (hi0 : 0 ≤ cfg.initialBackoff)
    (him : cfg.initialBackoff ≤ cfg.maxBackoff) (outs : List Bool) :
    cfg.initialBackoff ≤ (runMonitor cfg (initState cfg) outs).currentBackoff ∧
    (runMonitor cfg (initState cfg) outs).currentBackoff ≤ cfg.maxBackoff :=
  runMonitor_bound cfg hf hi0 him outs (initState cfg)
    (by simp [initState]) (by simpa [initState] using him)

/-- Witness for C4 (amended): the bounds hold after a concrete run of
four DOWN cycles, an UP cycle and another DOWN cycle in the Scenario C
configuration. -/
theorem backoff_bounds_amended_witness :
    (⟨60, 3, false, 300, 60, 2⟩ : MonitorConfig).initialBackoff ≤
      (runMonitor ⟨60, 3, false, 300, 60, 2⟩ (initState ⟨60, 3, false, 300, 60, 2⟩)
        [true, true, true, true, false, true]).currentBackoff ∧
    (runMonitor ⟨60, 3, false, 300, 60, 2⟩ (initState ⟨60, 3, false, 300, 60, 2⟩)
        [true, true, true, true, false, true]).currentBackoff ≤
      (⟨60, 3, false, 300, 60, 2⟩ : MonitorConfig).maxBackoff :=
  backoff_bounds_amended ⟨60, 3, false, 300, 60, 2⟩ (by norm_num) (by norm_num)
    (by norm_num) [true, true, true, true, false, true]

/-- C7 counterexample: when the remediation executable launches but exits
with status 1, `executeELF` does not print the captured output — contrary
to the claim that the output is still returned/logged —, because
`CombinedOutput` reports the non-zero exit as an error. -/
theorem nonzero_exit_counterexample :
    ExecEvent.elfOutput "fix applied" ∉ executeELF ⟨true, 1, "fix applied"⟩ := by
  simp [executeELF]

/-- C7 (amended): a successful launch with a non-zero exit status is
treated as an execution failure by `executeELF`: the failure is logged
and the captured output is not printed; the backoff-state update and the
sleep of the DOWN cycle are nevertheless unaffected by the exit code. -/
theorem nonzero_exit_behavior_amended (out : String) (code : ℤ) (hcode : code ≠ 0)
    (cfg : MonitorConfig) (s : BackoffState) (rem2 : ProcResult) :
    executeELF ⟨true, code, out⟩ = [ExecEvent.failedToExecute] ∧
    (monitorCycleFull cfg s true ⟨true, code, out⟩).1 =
      (monitorCycleFull cfg s true rem2).1 := by
  constructor
  · simp [executeELF, hcode]
  · rw [monitorCycleFull_fst, monitorCycleFull_fst]

/-- Witness for C7 (amended): exit code 1 with output "fix applied". -/
theorem nonzero_exit_behavior_amended_witness :
    executeELF ⟨true, 1, "fix applied"⟩ = [ExecEvent.failedToExecute] ∧
    (monitorCycleFull ⟨60, 3, false, 300, 60, 2⟩ ⟨0, 60⟩ true
        ⟨true, 1, "fix applied"⟩).1 =
      (monitorCycleFull ⟨60, 3, false, 300, 60, 2⟩ ⟨0, 60⟩ true ⟨true, 0, "ok"⟩).1 :=
  nonzero_exit_behavior_amended "fix applied" 1 (by decide)
    ⟨60, 3, false, 300, 60, 2⟩ ⟨0, 60⟩ ⟨true, 0, "ok"⟩

/-- C8: a remediation launch failure is only logged: the backoff-state
update and sleep of a DOWN cycle are identical for any two remediation
process results, a launch failure produces exactly the failure log line,
and the whole (total) run of the loop over any finite input sequence is
the same function of the probe outcomes alone — no remediation failure
terminates or alters the loop. -/
theorem remediation_frame :
    (∀ (cfg : MonitorConfig) (s : BackoffState) (rem1 rem2 : ProcResult),
        (monitorCycleFull cfg s true rem1).1 = (monitorCycleFull cfg s true rem2).1) ∧
    (∀ (code : ℤ) (out : String),
        executeELF ⟨false, code, out⟩ = [ExecEvent.failedToExecute]) ∧
    (∀ (cfg : MonitorConfig) (s : BackoffState) (inputs : List (Bool × ProcResult)),
        runMonitorFull cfg s inputs = runMonitor cfg s (inputs.map Prod.fst)) := by
  refine ⟨?_, ?_, ?_⟩
  · intro cfg s rem1 rem2
    rw [monitorCycleFull_fst, monitorCycleFull_fst]
  · intro code out
    simp [executeELF]
  · intro cfg s inputs
    induction inputs generalizing s with
    | nil => rfl
    | cons p rest ih =>
        rcases p with ⟨o, rem⟩
        simp [runMonitorFull, runMonitor, monitorCycleFull_fst, ih]

/-! Prober helper lemmas. -/

theorem cwdFrom_stop (o : ℕ → AttemptResult) (r : ℤ) (v : Bool) (i : ℕ)
    (hind : ¬ ((i : ℤ) < r)) :
    checkWebsiteDownFrom o r v i = (true, 0, []) := by
  unfold checkWebsiteDownFrom
  rw [dif_neg hind]

theorem cwdFrom_ok (o : ℕ → AttemptResult) (r : ℤ) (v : Bool) (i : ℕ)
    (hind : (i : ℤ) < r) (hok : attemptOk (o i) = true) :
    checkWebsiteDownFrom o r v i = (false, 1, []) := by
  unfold checkWebsiteDownFrom
  rw [dif_pos hind]
  rcases ho : o i with _ | c
  · rw [ho] at hok
    simp [attemptOk] at hok
  · rw [ho] at hok
    have hc : ¬ (c < 200 ∨ 400 ≤ c) := by
      by_contra hcc
      simp [attemptOk, hcc] at hok
    simp [hc]

theorem cwdFrom_fail (o : ℕ → AttemptResult) (r : ℤ) (v : Bool) (i : ℕ)
    (hind : (i : ℤ) < r) (hok : attemptOk (o i) = false) :
    (checkWebsiteDownFrom o r v i).1 = (checkWebsiteDownFrom o r v (i + 1)).1 ∧
    (checkWebsiteDownFrom o r v i).2.1 = (checkWebsiteDownFrom o r v (i + 1)).2.1 + 1 := by
  by_cases hlast : (i : ℤ) < r - 1
  · rcases hrec : checkWebsiteDownFrom o r v (i + 1) with ⟨d, n, l⟩
    unfold checkWebsiteDownFrom
    rw [dif_pos hind]
    rcases ho : o i with _ | c
    · rw [hrec]
      simp [hlast]
    · rw [ho] at hok
      have hc : c < 200 ∨ 400 ≤ c := by
        by_contra hcc
        simp [attemptOk, hcc] at hok
      rw [hrec]
      simp [hc, hlast]
  · have hstop : checkWebsiteDownFrom o r v (i + 1) = (true, 0, []) := by
      apply cwdFrom_stop
      push_cast
      omega
    rw [hstop]
    unfold checkWebsiteDownFrom
    rw [dif_pos hind]
    rcases ho : o i with _ | c
    · simp [hlast]
    · rw [ho] at hok
      have hc : c < 200 ∨ 400 ≤ c := by
        by_contra hcc
        simp [attemptOk, hcc] at hok
      simp [hc, hlast]

theorem cwdFrom_down_iff (o : ℕ → AttemptResult) (r : ℤ) (v : Bool) :
    ∀ i : ℕ, ((checkWebsiteDownFrom o r v i).1 = true ↔
      ∀ j : ℕ, i ≤ j → (j : ℤ) < r → attemptOk (o j) = false) := by
  have key : ∀ n : ℕ, ∀ i : ℕ, (r - (i : ℤ)).toNat = n →
      ((checkWebsiteDownFrom o r v i).1 = true ↔
        ∀ j : ℕ, i ≤ j → (j : ℤ) < r → attemptOk (o j) = false) := by
    intro n
    induction n using Nat.strong_induction_on with
    | _ n ih =>
      intro i hni
      by_cases hind : (i : ℤ) < r
      · by_cases hok : attemptOk (o i) = true
        · rw [cwdFrom_ok o r v i hind hok]
          constructor
          · intro h
            simp at h
          · intro hall
            have := hall i (le_refl i) hind
            rw [hok] at this
            simp at this
        · have hokf : attemptOk (o i) = false := by
            revert hok
            cases attemptOk (o i) <;> simp
          obtain ⟨hd, _⟩ := cwdFrom_fail o r v i hind hokf
          rw [hd, ih (r - ((i : ℤ) + 1)).toNat (by omega) (i + 1) (by push_cast; rfl)]
          constructor
          · intro hall j hij hjr
            rcases eq_or_lt_of_le hij with heq | hlt
            · rw [← heq]
              exact hokf
            · exact hall j (by omega) hjr
          · intro hall j hj1 hjr
            exact hall j (by omega) hjr
      · rw [cwdFrom_stop o r v i hind]
        constructor
        · intro _ j hij hjr
          exfalso
          have hij2 : (i : ℤ) ≤ (j : ℤ) := by exact_mod_cast hij
          omega
        · intro _
          rfl
  intro i
  exact key _ i rfl

theorem cwdFrom_attempts_all_fail (o : ℕ → AttemptResult) (r : ℤ) (v : Bool) :
    ∀ i : ℕ, (∀ j : ℕ, i ≤ j → (j : ℤ) < r → attemptOk (o j) = false) →
      ((checkWebsiteDownFrom o r v i).2.1 : ℤ) = max (r - (i : ℤ)) 0 := by
  have key : ∀ n : ℕ, ∀ i : ℕ, (r - (i : ℤ)).toNat = n →
      (∀ j : ℕ, i ≤ j → (j : ℤ) < r → attemptOk (o j) = false) →
      ((checkWebsiteDownFrom o r v i).2.1 : ℤ) = max (r - (i : ℤ)) 0 := by
    intro n
    induction n using Nat.strong_induction_on with
    | _ n ih =>
      intro i hni hfail
      by_cases hind : (i : ℤ) < r
      · have hokf : attemptOk (o i) = false := hfail i (le_refl i) hind
        obtain ⟨_, hn⟩ := cwdFrom_fail o r v i hind hokf
        have hrec := ih (r - ((i : ℤ) + 1)).toNat (by omega) (i + 1) (by push_cast; rfl)
          (fun j hj hjr => hfail j (by omega) hjr)
        rw [hn]
        push_cast
        push_cast at hrec
        omega
      · rw [cwdFrom_stop o r v i hind]
        simp
        omega
  intro i
  exact key _ i rfl

theorem cwdFrom_attempts_first_ok (o : ℕ → AttemptResult) (r : ℤ) (v : Bool) :
    ∀ (d i j : ℕ), i + d = j → (j : ℤ) < r → attemptOk (o j) = true →
      (∀ k : ℕ, i ≤ k → k < j → attemptOk (o k) = false) →
      (checkWebsiteDownFrom o r v i).2.1 = d + 1 := by
  intro d
  induction d with
  | zero =>
      intro i j hij hjr hok hfail
      have hij2 : i = j := by omega
      subst hij2
      rw [cwdFrom_ok o r v i hjr hok]
  | succ d ih =>
      intro i j hij hjr hok hfail
      have hlt : i < j := by omega
      have hokf : attemptOk (o i) = false := hfail i (le_refl i) hlt
      have hir : (i : ℤ) < r := by
        have hij3 : (i : ℤ) < (j : ℤ) := by exact_mod_cast hlt
        omega
      obtain ⟨_, hn⟩ := cwdFrom_fail o r v i hir hokf
      rw [hn, ih (i + 1) j (by omega) hjr hok (fun k hk1 hk2 => hfail k (by omega) hk2)]

theorem cwdFrom_verbose_indep (o : ℕ → AttemptResult) (r : ℤ) (v1 v2 : Bool) :
    ∀ i : ℕ, ((checkWebsiteDownFrom o r v1 i).1 = (checkWebsiteDownFrom o r v2 i).1) ∧
      ((checkWebsiteDownFrom o r v1 i).2.1 = (checkWebsiteDownFrom o r v2 i).2.1) := by
  have key : ∀ n : ℕ, ∀ i : ℕ, (r - (i : ℤ)).toNat = n →
      ((checkWebsiteDownFrom o r v1 i).1 = (checkWebsiteDownFrom o r v2 i).1) ∧
      ((checkWebsiteDownFrom o r v1 i).2.1 = (checkWebsiteDownFrom o r v2 i).2.1) := by
    intro n
    induction n using Nat.strong_induction_on with
    | _ n ih =>
      intro i hni
      by_cases hind : (i : ℤ) < r
      · by_cases hok : attemptOk (o i) = true
        · rw [cwdFrom_ok o r v1 i hind hok, cwdFrom_ok o r v2 i hind hok]
          exact ⟨rfl, rfl⟩
        · have hokf : attemptOk (o i) = false := by
            revert hok
            cases attemptOk (o i) <;> simp
          obtain ⟨hd1, hn1⟩ := cwdFrom_fail o r v1 i hind hokf
          obtain ⟨hd2, hn2⟩ := cwdFrom_fail o r v2 i hind hokf
          have hrec := ih (r - ((i : ℤ) + 1)).toNat (by omega) (i + 1) (by push_cast; rfl)
          exact ⟨by rw [hd1, hd2, hrec.1], by rw [hn1, hn2, hrec.2]⟩
      · rw [cwdFrom_stop o r v1 i hind, cwdFrom_stop o r v2 i hind]
        exact ⟨rfl, rfl⟩
  intro i
  exact key _ i rfl

theorem MainGo_cwdFrom_eq (o : ℕ → AttemptResult) (r : ℤ) (v : Bool) :
    ∀ i : ℕ, MainGo.checkWebsiteDownFrom o r v i = checkWebsiteDownFrom o r v i := by
  have key : ∀ n : ℕ, ∀ i : ℕ, (r - (i : ℤ)).toNat = n →
      MainGo.checkWebsiteDownFrom o r v i = checkWebsiteDownFrom o r v i := by
    intro n
    induction n using Nat.strong_induction_on with
    | _ n ih =>
      intro i hni
      by_cases hind : (i : ℤ) < r
      · have hrec : MainGo.checkWebsiteDownFrom o r v (i + 1) =
            checkWebsiteDownFrom o r v (i + 1) :=
          ih (r - ((i : ℤ) + 1)).toNat (by omega) (i + 1) (by push_cast; rfl)
        unfold MainGo.checkWebsiteDownFrom checkWebsiteDownFrom
        rw [dif_pos hind, dif_pos hind, hrec]
      · unfold MainGo.checkWebsiteDownFrom checkWebsiteDownFrom
        rw [dif_neg hind, dif_neg hind]
  intro i
  exact key _ i rfl

/-! Claim theorems for the Prober. -/

/-- C5: with a retry budget of at least 1, the Prober reports UP (returns
`false`) exactly when some attempt with index below `retries` succeeds
(no transport error and status in [200, 400)); it stops at the first such
attempt, having performed exactly that many GET calls; it reports DOWN
(returns `true`) exactly when every attempt in the budget fails, in which
case it performed all `retries` attempts. -/
theorem prober_classification (o : ℕ → AttemptResult) (r : ℤ) (v : Bool)
    (hr : 1 ≤ r) :
    (checkWebsiteDown o r v = false ↔
      ∃ j : ℕ, (j : ℤ) < r ∧ attemptOk (o j) = true) ∧
    (checkWebsiteDown o r v = true ↔
      ∀ j : ℕ, (j : ℤ) < r → attemptOk (o j) = false) ∧
    (∀ j : ℕ, (j : ℤ) < r → attemptOk (o j) = true →
      (∀ k : ℕ, k < j → attemptOk (o k) = false) → checkAttempts o r v = j + 1) ∧
    (checkWebsiteDown o r v = true → (checkAttempts o r v : ℤ) = r) := by
  have hdown2 : checkWebsiteDown o r v = true ↔
      ∀ j : ℕ, (j : ℤ) < r → attemptOk (o j) = false := by
    unfold checkWebsiteDown
    rw [cwdFrom_down_iff o r v 0]
    constructor
    · intro h j hj
      exact h j (Nat.zero_le j) hj
    · intro h j _ hj
      exact h j hj
  refine ⟨?_, hdown2, ?_, ?_⟩
  · constructor
    · intro h
      by_contra hne
      push_neg at hne
      have hid : checkWebsiteDown o r v = true := hdown2.mpr (fun j hj => by
        have hj2 := hne j hj
        revert hj2
        cases attemptOk (o j) <;> simp)
      rw [h] at hid
      simp at hid
    · rintro ⟨j, hj, hok⟩
      by_contra hne
      have hid : checkWebsiteDown o r v = true := by
        revert hne
        cases checkWebsiteDown o r v <;> simp
      have hcontra := hdown2.mp hid j hj
      rw [hok] at hcontra
      simp at hcontra
  · intro j hj hok hfail
    unfold checkAttempts
    exact cwdFrom_attempts_first_ok o r v j 0 j (by omega) hj hok
      (fun k _ hk2 => hfail k hk2)
  · intro h
    unfold checkAttempts
    have h2 := cwdFrom_attempts_all_fail o r v 0 (fun j _ hj => hdown2.mp h j hj)
    push_cast at h2
    omega

/-- Witness for C5 (Scenario A): retries=3, attempt 1 transport error,
attempt 2 status 503, attempt 3 status 200, so the Prober reports UP. -/
theorem prober_classification_witness :
    checkWebsiteDown (fun n => if n = 0 then AttemptResult.transportError
      else if n = 1 then AttemptResult.status 503 else AttemptResult.status 200)
      3 false = false :=
  (prober_classification (fun n => if n = 0 then AttemptResult.transportError
      else if n = 1 then AttemptResult.status 503 else AttemptResult.status 200)
      3 false (by norm_num)).1.mpr
    ⟨2, by norm_num, by norm_num [attemptOk]⟩

/-- C6: a non-positive retry count is not rejected and not treated as 1:
the loop body never runs, no GET attempt is performed, and the Prober
returns DOWN purely from the end-of-loop fallback — even against an
oracle whose every attempt would succeed. -/
theorem retries_nonpositive_zero_attempts (o : ℕ → AttemptResult) (v : Bool)
    (r : ℤ) (hr : r ≤ 0) :
    checkWebsiteDown o r v = true ∧ checkAttempts o r v = 0 := by
  have h := cwdFrom_stop o r v 0 (by push_cast; omega)
  unfold checkWebsiteDown checkAttempts
  rw [h]
  exact ⟨rfl, rfl⟩

/-- Witness for C6: retries = 0 against an always-succeeding oracle. -/
theorem retries_nonpositive_zero_attempts_witness :
    checkWebsiteDown (fun _ => AttemptResult.status 200) 0 false = true ∧
    checkAttempts (fun _ => AttemptResult.status 200) 0 false = 0 :=
  retries_nonpositive_zero_attempts (fun _ => AttemptResult.status 200) false 0
    (by norm_num)

/-- C9: the `checkWebsiteDown` of `src/main.go` and the one of
`src/unnamed/part_000` are extensionally equal: for every oracle of
per-attempt results, retry budget and verbosity they return the same
classification. -/
theorem prober_variants_equal (o : ℕ → AttemptResult) (r : ℤ) (v : Bool) :
    MainGo.checkWebsiteDown o r v = checkWebsiteDown o r v := by
  unfold MainGo.checkWebsiteDown checkWebsiteDown
  rw [MainGo_cwdFrom_eq o r v 0]

/-- C10: the classification returned by `checkWebsiteDown` — and even the
number of GET attempts performed — is independent of the verbose flag;
verbosity only changes the diagnostic log component. -/
theorem classification_verbose_independent (o : ℕ → AttemptResult) (r : ℤ)
    (v1 v2 : Bool) :
    checkWebsiteDown o r v1 = checkWebsiteDown o r v2 ∧
    checkAttempts o r v1 = checkAttempts o r v2 := by
  have h := cwdFrom_verbose_indep o r v1 v2 0
  unfold checkWebsiteDown checkAttempts
  exact ⟨h.1, h.2⟩
